import Mathlib

/-!
Shallow embedding of the MCPretentious screen-capture pipeline:
the 256-color model (`color256ToRGB`, `rgbToHex` from the color utilities),
the ANSI SGR parser (`parseSGR`, `parseAnsiLine` from `src/lib/ansi-parser.js`),
the viewport calculator and layer encoders
(`calculateViewport`, `extractTextLayer`, `extractColorLayers`,
`extractStyleLayers`, `applyCompactMode` from `src/lib/screenshot-layers.js`),
the palette pass of `convertToLayers` (`src/lib/ansi-parser.js`), and the
cursor post-processing of the tmux backend and of the iTerm2 screenshot
handler.  Machine numbers are modelled as `Nat`/`Int`; JavaScript objects with
optional fields become structures with `Option` fields; code that throws
becomes `Except String`.
-/

set_option maxRecDepth 10000

deriving instance DecidableEq for Except

/-- An RGB triple as produced by the color utilities (channels 0..255 in
practice, unconstrained here as in JavaScript). -/
structure RGB where
  r : Nat
  g : Nat
  b : Nat
deriving DecidableEq, Repr

/-- The fixed 16-entry ANSI table `ANSI_TO_RGB` from the color utilities,
with the JavaScript fallback `|| {r:0,g:0,b:0}` for out-of-range keys. -/
def ansiToRGB (i : Nat) : RGB :=
  match i with
  | 0 => ⟨0, 0, 0⟩
  | 1 => ⟨194, 54, 33⟩
  | 2 => ⟨37, 188, 36⟩
  | 3 => ⟨173, 173, 39⟩
  | 4 => ⟨73, 46, 225⟩
  | 5 => ⟨211, 56, 211⟩
  | 6 => ⟨51, 187, 200⟩
  | 7 => ⟨203, 204, 205⟩
  | 8 => ⟨129, 131, 131⟩
  | 9 => ⟨252, 57, 31⟩
  | 10 => ⟨49, 231, 34⟩
  | 11 => ⟨234, 236, 35⟩
  | 12 => ⟨88, 51, 255⟩
  | 13 => ⟨249, 53, 248⟩
  | 14 => ⟨20, 240, 240⟩
  | 15 => ⟨233, 235, 235⟩
  | _ => ⟨0, 0, 0⟩

/-- The `levels` table of `color256ToRGB`, with JavaScript's
out-of-bounds-indexing-yields-undefined modelled as `getD _ 0`
(indices are always in range at the call sites). -/
def cubeLevels : List Nat := [0, 95, 135, 175, 215, 255]

/-- Embedding of `color256ToRGB` from the color utilities: 0-15 the ANSI table,
16-231 the 6x6x6 cube, 232 and above the grayscale ramp. -/
def color256ToRGB (index : Nat) : RGB :=
  if index < 16 then
    ansiToRGB index
  else if index < 232 then
    let i := index - 16
    let r := i / 36
    let g := (i % 36) / 6
    let b := i % 6
    ⟨cubeLevels.getD r 0, cubeLevels.getD g 0, cubeLevels.getD b 0⟩
  else
    let gray := 8 + (index - 232) * 10
    ⟨gray, gray, gray⟩

/-- Lowercase hexadecimal digit characters. -/
def hexDigitChar (n : Nat) : Char :=
  if n < 10 then Char.ofNat (48 + n) else Char.ofNat (97 + n - 10)

/-- Digit-list accumulator in base `b` (structural recursion on fuel so that
the kernel can evaluate it; the fuel `n + 1` always suffices). -/
def baseDigitsGo (b : Nat) : Nat → Nat → List Nat → List Nat
  | 0, n, acc => n :: acc
  | fuel + 1, n, acc => if n < b then n :: acc else baseDigitsGo b fuel (n / b) (n % b :: acc)

/-- The base-16 digit list of `n`, most significant first
(JavaScript `n.toString(16)`). -/
def hexDigits (n : Nat) : List Nat :=
  baseDigitsGo 16 n n []

/-- One channel of `rgbToHex`: `n.toString(16).padStart(2, '0')`.
`padStart` pads but never truncates. -/
def hexByte (n : Nat) : List Char :=
  let ds := (hexDigits n).map hexDigitChar
  if ds.length < 2 then List.replicate (2 - ds.length) '0' ++ ds else ds

/-- Embedding of `rgbToHex` from the color utilities: `"#rrggbb"`, lowercase, zero padded. -/
def rgbToHex (c : RGB) : String :=
  ⟨'#' :: (hexByte c.r ++ hexByte c.g ++ hexByte c.b)⟩

/-- The 6x6x6-cube formula exactly as the specification words it:
treat `i - 16` as a base-6 triple `(r, g, b)`, each digit mapped through the
level table `[0,95,135,175,215,255]`. -/
def specCubeRGB (i : Nat) : RGB :=
  ⟨cubeLevels.getD ((i - 16) / 36) 0,
   cubeLevels.getD (((i - 16) / 6) % 6) 0,
   cubeLevels.getD ((i - 16) % 6) 0⟩

/-- The grayscale formula exactly as the specification words it:
`8 + (i - 232) * 10` on all three channels. -/
def specGrayRGB (i : Nat) : RGB :=
  ⟨8 + (i - 232) * 10, 8 + (i - 232) * 10, 8 + (i - 232) * 10⟩

/-- The base-10 digit list of `n`, most significant first. -/
def decDigits (n : Nat) : List Nat :=
  baseDigitsGo 10 n n []

/-- Decimal digit character. -/
def decDigitChar (n : Nat) : Char := Char.ofNat (48 + n)

/-- JavaScript `String(n)` for a non-negative number. -/
def jsNumToString (n : Nat) : String :=
  ⟨(decDigits n).map decDigitChar⟩

/-- Value of a most-significant-first digit list. -/
def msbVal (l : List Nat) : Nat :=
  l.foldl (fun a d => a * 10 + d) 0

/-- JavaScript `String.prototype.substring`: both arguments are clamped to
`[0, length]` and swapped when out of order. -/
def jsSubstring (s : String) (a b : Int) : String :=
  let n : Int := s.length
  let a' := (max 0 (min a n)).toNat
  let b' := (max 0 (min b n)).toNat
  ⟨(s.data.take (max a' b')).drop (min a' b')⟩

/-- JavaScript `c.repeat(n)` for a one-character string.  (For a negative
count JavaScript raises a `RangeError`; every use in the embedded code is
guarded by a non-negative width hypothesis in the theorems below.) -/
def padRepeat (c : Char) (n : Int) : String :=
  ⟨List.replicate n.toNat c⟩

/-- JavaScript `Number(s)` on a string of decimal digits; the empty string
converts to `0`. -/
def jsNumber (s : List Char) : Nat :=
  s.foldl (fun a c => a * 10 + (c.toNat - 48)) 0

/-- JavaScript whitespace for `String.prototype.trim` (the characters that
occur in terminal text). -/
def isJsSpace (c : Char) : Bool :=
  c = ' ' || c = '\t' || c = '\n' || c = '\r' || c = '\x0b' || c = '\x0c'

/-- JavaScript `s.trim()`: strip whitespace from both ends. -/
def jsTrim (s : String) : String :=
  ⟨((s.data.dropWhile isJsSpace).reverse.dropWhile isJsSpace).reverse⟩

/-- The integers from `a` (inclusive) to `b` (exclusive); empty when `b ≤ a`.
Models a JavaScript `for (let i = a; i < b; i++)` loop counter. -/
def intRange (a b : Int) : List Int :=
  (List.range (b - a).toNat).map (fun k => a + Int.ofNat k)

/-- A color field of a style run, as produced by the parser and consumed by
the encoders: exactly one of the JavaScript fields `fgStandard`/`bgStandard`,
`fgRgb`/`bgRgb`, `fgAlternate`/`bgAlternate` is set on a run,
so the three become one sum type. -/
inductive RunColor where
  | std (n : Nat)
  | rgbc (red green blue : Nat)
  | alt
deriving DecidableEq, Repr

/-- A style run.  JavaScript omits attribute keys that hold `false` and color
keys that are unset; a missing boolean key and `false` are observationally
identical downstream (`styleRun.bold || false`), so booleans are plain
`Bool`. -/
structure StyleRun where
  repeats : Nat := 1
  bold : Bool := false
  italic : Bool := false
  underline : Bool := false
  fg : Option RunColor := none
  bg : Option RunColor := none
deriving DecidableEq, Repr

/-- Embedding of `styleRun.repeats || 1`: a zero or missing repeat count acts as 1. -/
def effRepeats (r : StyleRun) : Nat :=
  if r.repeats = 0 then 1 else r.repeats

/-- The attribute record returned by `parseSGR`.  `none` is a JavaScript
`undefined` field; `fgColor = some none` is the explicit `null` set by
SGR 39/49. -/
structure Attrs where
  reset : Bool := false
  bold : Option Bool := none
  italic : Option Bool := none
  underline : Option Bool := none
  fgColor : Option (Option RGB) := none
  fgStandard : Option Nat := none
  fgAlternate : Bool := false
  bgColor : Option (Option RGB) := none
  bgStandard : Option Nat := none
  bgAlternate : Bool := false
deriving DecidableEq, Repr

/-- The `STANDARD_COLORS` table of the ANSI parser, keyed by SGR code
(30-37 normal, 90-97 bright); other keys are never queried. -/
def standardColors (code : Nat) : RGB :=
  match code with
  | 30 => ⟨0, 0, 0⟩
  | 31 => ⟨194, 54, 33⟩
  | 32 => ⟨37, 188, 36⟩
  | 33 => ⟨173, 173, 39⟩
  | 34 => ⟨73, 46, 225⟩
  | 35 => ⟨211, 56, 211⟩
  | 36 => ⟨51, 187, 200⟩
  | 37 => ⟨203, 204, 205⟩
  | 90 => ⟨129, 131, 131⟩
  | 91 => ⟨252, 57, 31⟩
  | 92 => ⟨49, 231, 34⟩
  | 93 => ⟨234, 236, 35⟩
  | 94 => ⟨88, 51, 255⟩
  | 95 => ⟨249, 53, 248⟩
  | 96 => ⟨20, 240, 240⟩
  | 97 => ⟨233, 235, 235⟩
  | _ => ⟨0, 0, 0⟩

/-- The loop body of `parseSGR`: the `switch` over one code, with the
extended-color cases 38/48 consuming lookahead parameters exactly when the
bounds checks `codes[i+1] === 5 && i+2 < codes.length` resp.
`codes[i+1] === 2 && i+4 < codes.length` succeed, and falling through to the
next code (consuming nothing) otherwise.  Codes with no `case` label leave
the attributes unchanged. -/
def sgrStep (c : Nat) (rest : List Nat) (attrs : Attrs) (parseSGRGo : List Nat → Attrs → Attrs) : Attrs :=
    if c = 0 then parseSGRGo rest { attrs with reset := true }
    else if c = 1 then parseSGRGo rest { attrs with bold := some true }
    else if c = 3 then parseSGRGo rest { attrs with italic := some true }
    else if c = 4 then parseSGRGo rest { attrs with underline := some true }
    else if c = 22 then parseSGRGo rest { attrs with bold := some false }
    else if c = 23 then parseSGRGo rest { attrs with italic := some false }
    else if c = 24 then parseSGRGo rest { attrs with underline := some false }
    else if 30 ≤ c ∧ c ≤ 37 then
      parseSGRGo rest { attrs with fgColor := some (some (standardColors c)), fgStandard := some (c - 30) }
    else if 90 ≤ c ∧ c ≤ 97 then
      parseSGRGo rest { attrs with fgColor := some (some (standardColors c)), fgStandard := some (c - 90 + 8) }
    else if 40 ≤ c ∧ c ≤ 47 then
      parseSGRGo rest { attrs with bgColor := some (some (standardColors (c - 10))), bgStandard := some (c - 40) }
    else if 100 ≤ c ∧ c ≤ 107 then
      parseSGRGo rest { attrs with bgColor := some (some (standardColors (c - 10))), bgStandard := some (c - 100 + 8) }
    else if c = 38 then
      match rest with
      | 5 :: n :: rest2 =>
        parseSGRGo rest2 { attrs with fgColor := some (some (color256ToRGB n)), fgStandard := some n }
      | 2 :: r :: g :: b :: rest2 =>
        parseSGRGo rest2 { attrs with fgColor := some (some ⟨r, g, b⟩) }
      | _ => parseSGRGo rest attrs
    else if c = 48 then
      match rest with
      | 5 :: n :: rest2 =>
        parseSGRGo rest2 { attrs with bgColor := some (some (color256ToRGB n)), bgStandard := some n }
      | 2 :: r :: g :: b :: rest2 =>
        parseSGRGo rest2 { attrs with bgColor := some (some ⟨r, g, b⟩) }
      | _ => parseSGRGo rest attrs
    else if c = 39 then parseSGRGo rest { attrs with fgColor := some none, fgAlternate := true }
    else if c = 49 then parseSGRGo rest { attrs with bgColor := some none, bgAlternate := true }
    else parseSGRGo rest attrs

/-- The parameter loop of `parseSGR`, one fuel unit per processed code
(the initial fuel, the list length, always suffices). -/
def parseSGRGo : Nat → List Nat → Attrs → Attrs
  | _, [], attrs => attrs
  | 0, _, attrs => attrs
  | fuel + 1, c :: rest, attrs => sgrStep c rest attrs (parseSGRGo fuel)

/-- Split a parameter string on `';'` (JavaScript `sequence.split(';')`);
an empty input yields one empty piece. -/
def splitSemis : List Char → List (List Char)
  | [] => [[]]
  | c :: rest =>
    let r := splitSemis rest
    if c = ';' then [] :: r
    else
      match r with
      | h :: t => (c :: h) :: t
      | [] => [[c]]

/-- Embedding of `parseSGR` on the parameter characters of one escape sequence (the
splitter below already removed the trailing `'m'` that the JavaScript code
strips with `.replace('m', '')`): split on `';'`, convert each piece with
`Number` (empty piece → 0), then run the switch loop. -/
def parseSGR (params : List Char) : Attrs :=
  let codes := (splitSemis params).map jsNumber
  parseSGRGo codes.length codes {}

/-- One token of the split line: a text segment or the parameter characters
of one captured escape sequence. -/
inductive AnsiPart where
  | txt (s : List Char)
  | esc (params : List Char)
deriving DecidableEq, Repr

/-- Embedding of `'0'..'9'` or `';'`: the characters the capture group `[0-9;]+` accepts. -/
def isParamChar (c : Char) : Bool :=
  (48 ≤ c.toNat && c.toNat ≤ 57) || c = ';'

/-- The split of a raw line by `/\x1b\[([0-9;]+m)/` with its capture group:
alternating text parts and captured parameter runs.  At `ESC [` followed by a
non-empty run of `[0-9;]` and then `'m'` the match succeeds; otherwise the
`ESC` stays in the surrounding text and scanning resumes at the next
character, as the regex engine does.  Structural recursion on fuel (one unit
per consumed character) so the kernel can evaluate it. -/
def splitAnsiGo : Nat → List Char → List Char → List AnsiPart
  | 0, s, acc => [.txt (acc.reverse ++ s)]
  | _ + 1, [], acc => [.txt acc.reverse]
  | fuel + 1, c :: rest, acc =>
    if c = '\x1b' then
      match rest with
      | '[' :: rest2 =>
        let ps := rest2.takeWhile isParamChar
        let rest3 := rest2.dropWhile isParamChar
        if ps ≠ [] then
          match rest3 with
          | 'm' :: rest4 => .txt acc.reverse :: .esc ps :: splitAnsiGo fuel rest4 []
          | _ => splitAnsiGo fuel rest (c :: acc)
        else splitAnsiGo fuel rest (c :: acc)
      | _ => splitAnsiGo fuel rest (c :: acc)
    else splitAnsiGo fuel rest (c :: acc)

/-- Split a raw line into alternating text and escape tokens. -/
def splitAnsi (s : List Char) : List AnsiPart :=
  splitAnsiGo (s.length + 1) s []

/-- The current-style accumulator of `parseAnsiLine`, reset to all defaults
at the start of every line. -/
structure CurStyle where
  bold : Bool := false
  italic : Bool := false
  underline : Bool := false
  fgColor : Option RGB := none
  bgColor : Option RGB := none
  fgStandard : Option Nat := none
  bgStandard : Option Nat := none
  fgAlternate : Bool := false
  bgAlternate : Bool := false
deriving DecidableEq, Repr

/-- Apply the attribute record of one escape sequence to the accumulator:
a reset replaces the whole accumulator with defaults; otherwise each defined
attribute is copied, and a defined `fgColor`/`bgColor` copies its
standard-index and alternate companions along with it. -/
def applyAttrs (cs : CurStyle) (a : Attrs) : CurStyle :=
  if a.reset then {}
  else
    let cs := { cs with
      bold := a.bold.getD cs.bold,
      italic := a.italic.getD cs.italic,
      underline := a.underline.getD cs.underline }
    let cs :=
      match a.fgColor with
      | some v => { cs with fgColor := v, fgStandard := a.fgStandard, fgAlternate := a.fgAlternate }
      | none => cs
    match a.bgColor with
    | some v => { cs with bgColor := v, bgStandard := a.bgStandard, bgAlternate := a.bgAlternate }
    | none => cs

/-- Build the style run recorded for one text segment: a snapshot of the
accumulator, keeping only the fields JavaScript writes (a set color prefers
its standard index over its RGB value; with no color set, an explicit
default marker may be recorded). -/
def mkRun (cs : CurStyle) (len : Nat) : StyleRun :=
  { repeats := len,
    bold := cs.bold,
    italic := cs.italic,
    underline := cs.underline,
    fg :=
      match cs.fgColor, cs.fgStandard with
      | some _, some n => some (.std n)
      | some rgb, none => some (.rgbc rgb.r rgb.g rgb.b)
      | none, _ => if cs.fgAlternate then some .alt else none,
    bg :=
      match cs.bgColor, cs.bgStandard with
      | some _, some n => some (.std n)
      | some rgb, none => some (.rgbc rgb.r rgb.g rgb.b)
      | none, _ => if cs.bgAlternate then some .alt else none }

/-- A structured line: visible text plus its style runs. -/
structure PLine where
  text : String
  style : List StyleRun
deriving DecidableEq, Repr

/-- The token loop of `parseAnsiLine`: a non-empty text token appends its
characters to the text and pushes one run (a snapshot of the accumulator with
the segment's length); an escape token mutates the accumulator only. -/
def plGo : List AnsiPart → CurStyle → PLine → PLine
  | [], _, acc => acc
  | .txt t :: rest, cs, acc =>
    if t.length > 0 then
      plGo rest cs ⟨acc.text ++ ⟨t⟩, acc.style ++ [mkRun cs t.length]⟩
    else plGo rest cs acc
  | .esc p :: rest, cs, acc =>
    plGo rest (applyAttrs cs (parseSGR p)) acc

/-- Embedding of `parseAnsiLine` from the ANSI parser, including the final fallback run
for a non-empty line that produced no runs. -/
def parseAnsiLine (line : String) : PLine :=
  let r := plGo (splitAnsi line.data) {} ⟨"", []⟩
  if r.style.length = 0 ∧ r.text.length > 0 then
    ⟨r.text, [{ repeats := r.text.length }]⟩
  else r

/-- The text segments of a split line, in order (the specification-side view
used to state which runs `parseAnsiLine` pushes). -/
def textSegs : List AnsiPart → List (List Char)
  | [] => []
  | .txt t :: rest => t :: textSegs rest
  | .esc _ :: rest => textSegs rest

/-- Terminal dimensions. -/
structure Terminal where
  width : Int
  height : Int
deriving DecidableEq, Repr

/-- A requested region rectangle; `left`/`top` may be omitted. -/
structure Region where
  left : Option Int := none
  top : Option Int := none
  width : Int
  height : Int
deriving DecidableEq, Repr

/-- The screenshot parameters consulted by `calculateViewport`. -/
structure ScreenshotParams where
  region : Option Region := none
  aroundCursor : Option Int := none
deriving DecidableEq, Repr

/-- A cursor position `{x, y}`. -/
structure CursorPos where
  x : Int
  y : Int
deriving DecidableEq, Repr

/-- The viewport mode tag. -/
inductive ViewportMode where
  | region
  | aroundCursor
  | full
deriving DecidableEq, Repr

/-- A viewport. -/
structure Viewport where
  mode : ViewportMode
  left : Int
  top : Int
  width : Int
  height : Int
deriving DecidableEq, Repr

/-- Embedding of `calculateViewport` from the screenshot-layer module.  `region.left || 0`
maps both a missing and a zero `left` to 0, which `Option.getD` reproduces. -/
def calculateViewport (terminal : Terminal) (cursor : CursorPos) (params : ScreenshotParams) : Viewport :=
  match params.region with
  | some r =>
    { mode := .region, left := r.left.getD 0, top := r.top.getD 0,
      width := r.width, height := r.height }
  | none =>
    match params.aroundCursor with
    | some n =>
      { mode := .aroundCursor, left := 0, top := max 0 (cursor.y - n),
        width := terminal.width, height := min terminal.height (n * 2 + 1) }
    | none =>
      { mode := .full, left := 0, top := 0,
        width := terminal.width, height := terminal.height }

/-- A captured terminal line as the layer encoders see it:
`text` (missing text reads as `''` via `lines[i].text || ''`) and an optional
style-run list.  A buffer slot may hold no line at all, hence the encoders
take `List (Option TLine)`. -/
structure TLine where
  text : String := ""
  style : Option (List StyleRun) := none
deriving DecidableEq, Repr

/-- Embedding of `lines[i]` for an integer loop index: out-of-range and negative indices
and empty slots all read as "no line". -/
def lineAt (lines : List (Option TLine)) (i : Int) : Option TLine :=
  if i < 0 then none
  else
    match lines.get? i.toNat with
    | some (some l) => some l
    | _ => none

/-- The row indices every layer extractor iterates:
`for (let i = viewport.top; i < Math.min(lines.length, viewport.top + viewport.height); i++)`. -/
def viewRows (lines : List (Option TLine)) (vp : Viewport) : List Int :=
  intRange vp.top (min (lines.length : Int) (vp.top + vp.height))

/-- The number of rows every pre-compaction layer receives. -/
def rowCount (lines : List (Option TLine)) (vp : Viewport) : Nat :=
  (min (lines.length : Int) (vp.top + vp.height) - vp.top).toNat

/-- Embedding of `extractTextLayer` from the screenshot-layer module. -/
def extractTextLayer (lines : List (Option TLine)) (vp : Viewport) (compact : Bool) : List String :=
  (viewRows lines vp).foldl (fun result i =>
    match lineAt lines i with
    | some ln =>
      let text := ln.text
      let text :=
        if vp.left > 0 ∨ vp.width < (text.length : Int) then
          jsSubstring text vp.left (vp.left + vp.width)
        else text
      if compact = false ∨ jsTrim text ≠ "" then result ++ [text] else result
    | none => if compact = false then result ++ [""] else result) []

/-- Embedding of `indexToChar` from the screenshot-layer module: `'0'`, `'1'-'9'`,
`'a'-'z'`, `'A'-'Z'`, and a thrown palette-overflow error from 62 on. -/
def indexToChar (index : Nat) : Except String Char :=
  if index = 0 then .ok '0'
  else if index < 10 then .ok (decDigitChar index)
  else if index < 36 then .ok (Char.ofNat (97 + index - 10))
  else if index < 62 then .ok (Char.ofNat (65 + index - 36))
  else .error ("Palette overflow: " ++ jsNumToString index ++ " exceeds maximum of 61 colors")

/-- Embedding of `extractColorFromStyle` from the screenshot-layer module: RGB fields win
over a standard index; an explicit default marker and an absent color both
resolve to "no color". -/
def extractColorFromStyle (r : StyleRun) (isBackground : Bool) : Option RGB :=
  if isBackground then
    match r.bg with
    | some (.rgbc red green blue) => some ⟨red, green, blue⟩
    | some (.std n) => some (color256ToRGB n)
    | some .alt => none
    | none => none
  else
    match r.fg with
    | some (.rgbc red green blue) => some ⟨red, green, blue⟩
    | some (.std n) => some (color256ToRGB n)
    | some .alt => none
    | none => none

/-- The inner per-run loop shared by `encodeColorLine`, `encodeStyleLine` and
`extractSingleStyle`: emit the run's character once per repeat at positions
inside `[left, left + width)`, and break out as soon as the position counter
reaches the right edge. -/
def encodeRunLoop (vp : Viewport) (ch : Char) : Nat → Nat → List Char → Nat × List Char
  | 0, pos, acc => (pos, acc)
  | n + 1, pos, acc =>
    let acc := if vp.left ≤ (pos : Int) ∧ (pos : Int) < vp.left + vp.width then acc ++ [ch] else acc
    let pos := pos + 1
    if vp.left + vp.width ≤ (pos : Int) then (pos, acc) else encodeRunLoop vp ch n pos acc

/-- The outer run loop shared by the three per-line encoders, with the same
early break on the right edge. -/
def encodeRunsGo (vp : Viewport) (charOf : StyleRun → Char) : List StyleRun → Nat → List Char → List Char
  | [], _, acc => acc
  | r :: rest, pos, acc =>
    let st := encodeRunLoop vp (charOf r) (effRepeats r) pos acc
    if vp.left + vp.width ≤ (st.1 : Int) then st.2 else encodeRunsGo vp charOf rest st.1 st.2

/-- Embedding of `while (result.length < viewport.width) result.push(c)`. -/
def padCells (cells : List Char) (c : Char) (width : Int) : List Char :=
  cells ++ List.replicate (width.toNat - cells.length) c

/-- Embedding of `encodeColorLine` from the screenshot-layer module. -/
def encodeColorLine (line : Option TLine) (vp : Viewport) (palette : List (String × Char)) (isBackground : Bool) : String :=
  match line with
  | none => padRepeat '0' vp.width
  | some ln =>
    match ln.style with
    | none => padRepeat '0' vp.width
    | some runs =>
      let charOf := fun r =>
        match (extractColorFromStyle r isBackground).map rgbToHex with
        | some hex => (palette.lookup hex).getD '0'
        | none => '0'
      ⟨padCells (encodeRunsGo vp charOf runs 0 []) '0' vp.width⟩

/-- One step of the first (palette-building) pass:
`if (hex && !palette[hex]) palette[hex] = indexToChar(paletteIndex++)`. -/
def addPaletteColor (st : Nat × List (String × Char)) (hex : String) : Except String (Nat × List (String × Char)) :=
  if (st.2.lookup hex).isSome then .ok st
  else do
    let c ← indexToChar st.1
    .ok (st.1 + 1, st.2 ++ [(hex, c)])

/-- Embedding of `lines[i]?.style`: the optional chain from a buffer slot to its style
list. -/
def optStyle : Option TLine → Option (List StyleRun)
  | none => none
  | some ln => ln.style

/-- The hex-color occurrences one buffer slot contributes to the palette
pass: for a row with a style list, each run's foreground hex (when requested)
then its background hex (when requested). -/
def rowOccs (needsFg needsBg : Bool) (oln : Option TLine) : List String :=
  match optStyle oln with
  | some runs =>
    runs.flatMap (fun r =>
      (if needsFg then ((extractColorFromStyle r false).map rgbToHex).toList else []) ++
      (if needsBg then ((extractColorFromStyle r true).map rgbToHex).toList else []))
  | none => []

/-- The hex-color occurrences the palette pass visits, in visit order. -/
def paletteOccs (lines : List (Option TLine)) (vp : Viewport) (needsFg needsBg : Bool) : List String :=
  (viewRows lines vp).flatMap (fun i => rowOccs needsFg needsBg (lineAt lines i))

/-- The whole first pass of `extractColorLayers`. -/
def buildPalette (lines : List (Option TLine)) (vp : Viewport) (needsFg needsBg : Bool) :
    Except String (Nat × List (String × Char)) :=
  (paletteOccs lines vp needsFg needsBg).foldlM addPaletteColor (1, [])

/-- The result object of `extractColorLayers`. -/
structure ColorLayers where
  fgColors : Option (List String) := none
  bgColors : Option (List String) := none
  colorPalette : Option (List (Char × Option String)) := none
deriving DecidableEq, Repr

/-- Embedding of `extractColorLayers` from the screenshot-layer module: empty result when
neither color layer is requested; otherwise the palette pass (which may
throw) followed by the per-row encoding pass and the inverted output palette
headed by the reserved `'0' ↦ null` slot. -/
def extractColorLayers (lines : List (Option TLine)) (vp : Viewport) (layers : List String) :
    Except String ColorLayers :=
  let needsFg := layers.contains "fgColors"
  let needsBg := layers.contains "bgColors"
  if needsFg = false ∧ needsBg = false then .ok {}
  else
    match buildPalette lines vp needsFg needsBg with
    | .error e => .error e
    | .ok st =>
      let palette := st.2
      let encode := fun isBg => (viewRows lines vp).map (fun i =>
        match lineAt lines i with
        | some ln => encodeColorLine (some ln) vp palette isBg
        | none => padRepeat '0' vp.width)
      .ok { fgColors := if needsFg then some (encode false) else none,
            bgColors := if needsBg then some (encode true) else none,
            colorPalette := some (('0', none) :: palette.map (fun p => (p.2, some p.1))) }

/-- Embedding of `getStyleChar` from the screenshot-layer module: the eight-way
bold/italic/underline lookup (the final arm covers the remaining
all-three-true case). -/
def getStyleChar (bold italic underline : Bool) : Char :=
  if bold = false ∧ italic = false ∧ underline = false then '.'
  else if bold ∧ italic = false ∧ underline = false then 'b'
  else if bold = false ∧ italic ∧ underline = false then 'i'
  else if bold = false ∧ italic = false ∧ underline then 'u'
  else if bold ∧ italic ∧ underline = false then 'I'
  else if bold ∧ italic = false ∧ underline then 'U'
  else if bold = false ∧ italic ∧ underline then 'J'
  else 'X'

/-- Embedding of `encodeStyleLine` from the screenshot-layer module: same loop as
`encodeColorLine` with the combined-style character and `'.'` fill. -/
def encodeStyleLine (line : Option TLine) (vp : Viewport) : String :=
  match line with
  | none => padRepeat '.' vp.width
  | some ln =>
    match ln.style with
    | none => padRepeat '.' vp.width
    | some runs =>
      let charOf := fun (r : StyleRun) => getStyleChar r.bold r.italic r.underline
      ⟨padCells (encodeRunsGo vp charOf runs 0 []) '.' vp.width⟩

/-- Embedding of `extractSingleStyle` from the screenshot-layer module; the JavaScript
string-keyed attribute access `styleRun[attribute]` becomes the selector
function. -/
def extractSingleStyle (lines : List (Option TLine)) (vp : Viewport) (attrSel : StyleRun → Bool) : List String :=
  (viewRows lines vp).map (fun i =>
    match lineAt lines i with
    | some ln =>
      match ln.style with
      | some runs =>
        let charOf := fun (r : StyleRun) => if attrSel r then 'X' else ' '
        ⟨padCells (encodeRunsGo vp charOf runs 0 []) ' ' vp.width⟩
      | none => padRepeat ' ' vp.width
    | none => padRepeat ' ' vp.width)

/-- The fixed style legend emitted alongside the combined style layer. -/
def styleLegendTable : List (Char × Option String) :=
  [('.', none), ('b', some "bold"), ('i', some "italic"), ('u', some "underline"),
   ('I', some "bold+italic"), ('U', some "bold+underline"),
   ('J', some "italic+underline"), ('X', some "bold+italic+underline")]

/-- The result object of `extractStyleLayers`. -/
structure StyleLayers where
  styles : Option (List String) := none
  styleLegend : Option (List (Char × Option String)) := none
  bold : Option (List String) := none
  italic : Option (List String) := none
  underline : Option (List String) := none
deriving DecidableEq, Repr

/-- Embedding of `extractStyleLayers` from the screenshot-layer module. -/
def extractStyleLayers (lines : List (Option TLine)) (vp : Viewport) (layers : List String) : StyleLayers :=
  { styles :=
      if layers.contains "styles" then
        some ((viewRows lines vp).map (fun i =>
          match lineAt lines i with
          | some ln => encodeStyleLine (some ln) vp
          | none => padRepeat '.' vp.width))
      else none,
    styleLegend := if layers.contains "styles" then some styleLegendTable else none,
    bold := if layers.contains "bold" then some (extractSingleStyle lines vp (·.bold)) else none,
    italic := if layers.contains "italic" then some (extractSingleStyle lines vp (·.italic)) else none,
    underline := if layers.contains "underline" then some (extractSingleStyle lines vp (·.underline)) else none }

/-- The cursor object of an encoded frame. -/
structure CursorInfo where
  left : Int
  top : Int
  relLeft : Int
  relTop : Int
deriving DecidableEq, Repr

/-- An encoded frame as assembled by the screenshot handler: absent fields
are JavaScript keys that were never set. -/
structure Frame where
  terminal : Terminal
  viewport : Viewport
  cursor : Option CursorInfo := none
  text : Option (List String) := none
  fgColors : Option (List String) := none
  bgColors : Option (List String) := none
  styles : Option (List String) := none
  bold : Option (List String) := none
  italic : Option (List String) := none
  underline : Option (List String) := none
  colorPalette : Option (List (Char × Option String)) := none
  styleLegend : Option (List (Char × Option String)) := none
deriving DecidableEq, Repr

/-- The indices of text rows that are non-blank after trimming
(`line.trim()` truthy). -/
def nonEmptyIndices (text : List String) : List Nat :=
  (text.enum.filter (fun p => jsTrim p.2 ≠ "")).map (fun p => p.1)

/-- Embedding of `nonEmptyIndices.map(idx => response[layer][idx])`; an index past the end
of a layer reads as the empty row (it cannot arise for the frames the
pipeline builds, whose layers all share the text layer's length). -/
def reindex (layer : List String) (idxs : List Nat) : List String :=
  idxs.map (fun i => layer.getD i "")

/-- Embedding of `applyCompactMode` from the screenshot-layer module: no text layer means
no change; otherwise every present array layer is re-indexed to the
non-empty text rows. -/
def applyCompactMode (f : Frame) : Frame :=
  match f.text with
  | none => f
  | some t =>
    let idxs := nonEmptyIndices t
    { f with
      text := some (reindex t idxs),
      styles := f.styles.map (reindex · idxs),
      bold := f.bold.map (reindex · idxs),
      italic := f.italic.map (reindex · idxs),
      underline := f.underline.map (reindex · idxs),
      fgColors := f.fgColors.map (reindex · idxs),
      bgColors := f.bgColors.map (reindex · idxs) }

/-- The cursor object built by the iTerm2 screenshot handler: absolute
coordinates plus raw viewport-relative offsets, with no further adjustment. -/
def itermCursorInfo (cursor : CursorPos) (vp : Viewport) : CursorInfo :=
  { left := cursor.x, top := cursor.y,
    relLeft := cursor.x - vp.left, relTop := cursor.y - vp.top }

/-- The cursor post-processing of the tmux backend's `getScreenshot`: the
same object, then both relative fields forced to `-1` when the relative pair
falls outside `[0, width) × [0, height)`. -/
def tmuxCursorInfo (cursor : CursorPos) (vp : Viewport) : CursorInfo :=
  let c : CursorInfo :=
    { left := cursor.x, top := cursor.y,
      relLeft := cursor.x - vp.left, relTop := cursor.y - vp.top }
  if c.relLeft < 0 ∨ vp.width ≤ c.relLeft ∨ c.relTop < 0 ∨ vp.height ≤ c.relTop then
    { c with relLeft := -1, relTop := -1 }
  else c

/-- One step of the palette pass of `convertToLayers` (ANSI parser module):
`if (!palette[hex]) palette[hex] = String(paletteIndex++)`.  The palette
starts as `{'0': null}`, and a `null` value is falsy, so only entries holding
a real token block re-insertion. -/
def convertAddColor (st : Nat × List (String × Option String)) (hex : String) :
    Nat × List (String × Option String) :=
  match st.2.lookup hex with
  | some (some _) => st
  | _ => (st.1 + 1, st.2 ++ [(hex, some (jsNumToString st.1))])

/-- The hex string one color field contributes to the `convertToLayers`
palette pass: an RGB field wins over a standard index, a default marker and
an absent color contribute nothing. -/
def colorHexList : Option RunColor → List String
  | some (.rgbc red green blue) => [rgbToHex ⟨red, green, blue⟩]
  | some (.std n) => [rgbToHex (color256ToRGB n)]
  | _ => []

/-- The hex colors one run contributes to the `convertToLayers` palette pass:
foreground then background. -/
def convertRunHexes (r : StyleRun) : List String :=
  colorHexList r.fg ++ colorHexList r.bg

/-- The palette object after the first pass of `convertToLayers`, including
its initial `'0' ↦ null` entry. -/
def convertPalette (lines : List PLine) : List (String × Option String) :=
  (lines.foldl (fun st ln => (ln.style.flatMap convertRunHexes).foldl convertAddColor st)
    (1, [("0", none)])).2

/-- The inverted output palette of `convertToLayers`: `'0' ↦ null` plus
`token ↦ hex` for every non-reserved entry of the internal palette. -/
def convertOutputPalette (lines : List PLine) : List (String × Option String) :=
  ("0", none) ::
    (convertPalette lines).filterMap (fun p =>
      if p.1 ≠ "0" then p.2.map (fun tok => (tok, some p.1)) else none)

/-- First-seen deduplication: the distinct elements of `l` not already in
`seen`, in first-occurrence order. -/
def dedupFirstGo (seen : List String) : List String → List String
  | [] => []
  | h :: t => if h ∈ seen then dedupFirstGo seen t else h :: dedupFirstGo (h :: seen) t

/-- The number of distinct colors the palette pass of `extractColorLayers`
must accommodate. -/
def distinctColorCount (lines : List (Option TLine)) (vp : Viewport) (needsFg needsBg : Bool) : Nat :=
  (dedupFirstGo [] (paletteOccs lines vp needsFg needsBg)).length

/-- The row a non-compact text extraction emits for index `i`. -/
def textRowAt (lines : List (Option TLine)) (vp : Viewport) (i : Int) : String :=
  match lineAt lines i with
  | some ln =>
    if vp.left > 0 ∨ vp.width < (ln.text.length : Int) then
      jsSubstring ln.text vp.left (vp.left + vp.width)
    else ln.text
  | none => ""

/-- The token character `indexToChar` produces for an in-range index. -/
def tokChar (index : Nat) : Char :=
  if index < 10 then decDigitChar index
  else if index < 36 then Char.ofNat (97 + index - 10)
  else Char.ofNat (65 + index - 36)

/-- A one-row buffer whose runs use 62 distinct cube colors. -/
def lines62 : List (Option TLine) :=
  [some { text := "",
          style := some ((List.range 62).map (fun k =>
            { repeats := 1, fg := some (.std (16 + k)) })) }]

/-- A full-screen viewport over `lines62`. -/
def vp62 : Viewport := { mode := .full, left := 0, top := 0, width := 62, height := 1 }

/-- Ten structured lines using ten distinct standard colors. -/
def tenColorLines : List PLine :=
  (List.range 10).map (fun k => ⟨"A", [{ repeats := 1, fg := some (.std k) }]⟩)

/-- C7: for every index in 0..255, `color256ToRGB` realises the 6x6x6-cube
formula on 16..231 and the grayscale ramp on 232..255, and takes the five
pinned values at 0, 16, 231, 232 and 255. -/
theorem color256ToRGB_correct :
    (∀ i < 256, (16 ≤ i → i < 232 → color256ToRGB i = specCubeRGB i) ∧
      (232 ≤ i → i ≤ 255 → color256ToRGB i = specGrayRGB i)) ∧
    color256ToRGB 0 = ⟨0, 0, 0⟩ ∧ color256ToRGB 16 = ⟨0, 0, 0⟩ ∧
    color256ToRGB 231 = ⟨255, 255, 255⟩ ∧ color256ToRGB 232 = ⟨8, 8, 8⟩ ∧
    color256ToRGB 255 = ⟨238, 238, 238⟩ := by
  decide

/-- Witness for C7 at index 100: the hypotheses of the bounded quantifier are
satisfiable and the cube formula holds there. -/
theorem color256ToRGB_correct_witness :
    100 < 256 ∧ 16 ≤ 100 ∧ 100 < 232 ∧ color256ToRGB 100 = specCubeRGB 100 :=
  ⟨by decide, by decide, by decide,
    (color256ToRGB_correct.1 100 (by decide)).1 (by decide) (by decide)⟩

/-- C4: `calculateViewport` checks region before aroundCursor before full
screen; aroundCursor distance `n` gives `top = max(0, cursorY - n)`,
`height = min(terminalHeight, 2n + 1)`, full width; full mode gives the whole
terminal rectangle; region mode defaults `left`/`top` to 0 and passes
`width`/`height` through unclamped. -/
theorem calculateViewport_modes (terminal : Terminal) (cursor : CursorPos) (params : ScreenshotParams) :
    (∀ r, params.region = some r →
      calculateViewport terminal cursor params =
        { mode := .region, left := r.left.getD 0, top := r.top.getD 0,
          width := r.width, height := r.height }) ∧
    (params.region = none → ∀ n, params.aroundCursor = some n →
      calculateViewport terminal cursor params =
        { mode := .aroundCursor, left := 0, top := max 0 (cursor.y - n),
          width := terminal.width, height := min terminal.height (2 * n + 1) }) ∧
    (params.region = none → params.aroundCursor = none →
      calculateViewport terminal cursor params =
        { mode := .full, left := 0, top := 0,
          width := terminal.width, height := terminal.height }) := by
  refine ⟨fun r hr => ?_, fun hr n hn => ?_, fun hr hn => ?_⟩ <;>
    simp [calculateViewport, hr] <;> simp [hn]
  omega

/-- Witness for C4: with both a region and an aroundCursor distance supplied,
the region wins, and the aroundCursor formulas hold when only the distance is
supplied. -/
theorem calculateViewport_modes_witness :
    calculateViewport ⟨10, 2⟩ ⟨3, 0⟩ { region := some { width := 4, height := 1 }, aroundCursor := some 2 } =
      { mode := .region, left := 0, top := 0, width := 4, height := 1 } ∧
    calculateViewport ⟨10, 2⟩ ⟨0, 5⟩ { aroundCursor := some 2 } =
      { mode := .aroundCursor, left := 0, top := 3, width := 10, height := 2 } :=
  ⟨(calculateViewport_modes ⟨10, 2⟩ ⟨3, 0⟩ _).1 { width := 4, height := 1 } rfl,
   (calculateViewport_modes ⟨10, 2⟩ ⟨0, 5⟩ _).2.1 rfl 2 rfl⟩

/-- C3: at cursor (50,50) with a full-screen 10x10 viewport, the iTerm2
screenshot handler emits the raw relative offsets 50,50 — it never applies
the -1,-1 out-of-viewport sentinel the documentation promises — while the
tmux backend's post-processing does force the sentinel on the same input,
leaving the absolute fields untouched. -/
theorem itermCursor_no_sentinel :
    itermCursorInfo ⟨50, 50⟩ { mode := .full, left := 0, top := 0, width := 10, height := 10 } =
      { left := 50, top := 50, relLeft := 50, relTop := 50 } ∧
    tmuxCursorInfo ⟨50, 50⟩ { mode := .full, left := 0, top := 0, width := 10, height := 10 } =
      { left := 50, top := 50, relLeft := -1, relTop := -1 } := by
  decide

/-- C10: `applyCompactMode` leaves a frame without a text layer untouched;
with a text layer it re-indexes exactly the seven row-oriented layers to the
non-empty text rows and leaves terminal, viewport, cursor, color palette and
style legend unchanged. -/
theorem applyCompactMode_spec (f : Frame) :
    (f.text = none → applyCompactMode f = f) ∧
    (∀ t, f.text = some t →
      applyCompactMode f =
        { f with
          text := some (reindex t (nonEmptyIndices t)),
          styles := f.styles.map (reindex · (nonEmptyIndices t)),
          bold := f.bold.map (reindex · (nonEmptyIndices t)),
          italic := f.italic.map (reindex · (nonEmptyIndices t)),
          underline := f.underline.map (reindex · (nonEmptyIndices t)),
          fgColors := f.fgColors.map (reindex · (nonEmptyIndices t)),
          bgColors := f.bgColors.map (reindex · (nonEmptyIndices t)) } ∧
      (applyCompactMode f).terminal = f.terminal ∧
      (applyCompactMode f).viewport = f.viewport ∧
      (applyCompactMode f).cursor = f.cursor ∧
      (applyCompactMode f).colorPalette = f.colorPalette ∧
      (applyCompactMode f).styleLegend = f.styleLegend) := by
  refine ⟨fun h => ?_, fun t h => ?_⟩
  · simp [applyCompactMode, h]
  · simp [applyCompactMode, h]

/-- Witness for C10: a concrete frame with text, styles and a palette,
compacted to its single non-empty row. -/
theorem applyCompactMode_spec_witness :
    applyCompactMode
      { terminal := ⟨3, 2⟩, viewport := { mode := .full, left := 0, top := 0, width := 3, height := 2 },
        text := some ["AB", "  "], styles := some ["b.", ".."],
        colorPalette := some [('0', none)] } =
      { terminal := ⟨3, 2⟩, viewport := { mode := .full, left := 0, top := 0, width := 3, height := 2 },
        text := some ["AB"], styles := some ["b."],
        colorPalette := some [('0', none)] } := by
  have h := (applyCompactMode_spec
    { terminal := ⟨3, 2⟩, viewport := { mode := .full, left := 0, top := 0, width := 3, height := 2 },
      text := some ["AB", "  "], styles := some ["b.", ".."],
      colorPalette := some [('0', none)] }).2 ["AB", "  "] rfl
  rw [h.1]
  decide

theorem mkRun_repeats (cs : CurStyle) (n : Nat) : (mkRun cs n).repeats = n := rfl

/-- The token loop, viewed through the text segments of the split: the text
is the concatenation of all segments, and the run list carries one run per
non-empty segment, whose repeat count is that segment's length. -/
theorem plGo_text_runs (parts : List AnsiPart) : ∀ (cs : CurStyle) (acc : PLine),
    (plGo parts cs acc).text.data = acc.text.data ++ (textSegs parts).flatten ∧
    (plGo parts cs acc).style.map StyleRun.repeats =
      acc.style.map StyleRun.repeats ++
        ((textSegs parts).filter (fun t => 0 < t.length)).map List.length := by
  induction parts with
  | nil => intro cs acc; simp [plGo, textSegs]
  | cons p rest ih =>
    intro cs acc
    cases p with
    | txt t =>
      by_cases ht : t.length > 0
      · have h := ih cs ⟨acc.text ++ ⟨t⟩, acc.style ++ [mkRun cs t.length]⟩
        simp only [plGo, if_pos ht, textSegs]
        refine ⟨?_, ?_⟩
        · rw [h.1, String.data_append]
          simp [List.flatten]
        · rw [h.2]
          simp [ht, mkRun_repeats]
      · have h0 : t = [] := by
          cases t with
          | nil => rfl
          | cons c cs => simp at ht
        subst h0
        simp only [plGo, textSegs]
        have h := ih cs acc
        simpa [List.flatten] using h
    | esc q =>
      simp only [plGo, textSegs]
      exact ih (applyAttrs cs (parseSGR q)) acc

/-- C5: parsing the raw line `"\x1b[1;31mAB\x1b[0mCD"` yields text `"ABCD"`
and exactly the two runs `{repeat 2, bold, standard index 1}` then
`{repeat 2, all defaults}`; and in general, for every raw line, the parsed
text is the concatenation of the split's text segments and the parser pushes
exactly one style run per non-empty text segment, whose repeat count is that
segment's length (the accumulator restarts at all-defaults each line because
`parseAnsiLine` is a function of the line alone). -/
theorem parseAnsiLine_runs :
    parseAnsiLine "\x1b[1;31mAB\x1b[0mCD" =
      ⟨"ABCD", [{ repeats := 2, bold := true, fg := some (.std 1) }, { repeats := 2 }]⟩ ∧
    ∀ s : String,
      (parseAnsiLine s).text.data = (textSegs (splitAnsi s.data)).flatten ∧
      (parseAnsiLine s).style.map StyleRun.repeats =
        ((textSegs (splitAnsi s.data)).filter (fun t => 0 < t.length)).map List.length := by
  constructor
  · decide
  · intro s
    have h := plGo_text_runs (splitAnsi s.data) {} ⟨"", []⟩
    simp only [parseAnsiLine]
    by_cases hg : (plGo (splitAnsi s.data) {} ⟨"", []⟩).style.length = 0 ∧
        0 < (plGo (splitAnsi s.data) {} ⟨"", []⟩).text.length
    · exfalso
      have hs : (plGo (splitAnsi s.data) {} ⟨"", []⟩).style = [] :=
        List.length_eq_zero.mp hg.1
      have hmap := h.2
      rw [hs] at hmap
      have hfil : ((textSegs (splitAnsi s.data)).filter (fun t => 0 < t.length)) = [] := by
        have := hmap.symm
        simpa using this
      have hall : ∀ t ∈ textSegs (splitAnsi s.data), t = [] := by
        intro t hmem
        have := List.filter_eq_nil_iff.mp hfil t hmem
        simpa using this
      have hflat : (textSegs (splitAnsi s.data)).flatten = [] :=
        List.flatten_eq_nil_iff.mpr hall
      have htext := h.1
      rw [hflat] at htext
      have : (plGo (splitAnsi s.data) {} ⟨"", []⟩).text.length = 0 := by
        show (plGo (splitAnsi s.data) {} ⟨"", []⟩).text.data.length = 0
        simp [htext]
      omega
    · simp only [if_neg hg]
      simpa using h

/-- C9: truncated extended-color sequences (`38;5`, `38` alone, `38;2` with
fewer than three channels, and the `48` analogues) leave the attribute record
untouched instead of reading past the end of the parameter list; an SGR code
carried by no `case` label is skipped with nothing consumed and nothing
changed; and a malformed sequence does not abort the rest of the line — the
following text and escapes still parse. -/
theorem parseSGR_truncation_safe :
    parseSGR "38;5".data = {} ∧
    parseSGR "38".data = {} ∧
    parseSGR "38;2;10;20".data = {} ∧
    parseSGR "48;5".data = {} ∧
    parseSGR "48;2;10;20".data = {} ∧
    parseAnsiLine "\x1b[38;5mAB\x1b[31mCD" =
      ⟨"ABCD", [{ repeats := 2 }, { repeats := 2, fg := some (.std 1) }]⟩ ∧
    (∀ c : Nat, c ≠ 0 → c ≠ 1 → c ≠ 3 → c ≠ 4 → c ≠ 22 → c ≠ 23 → c ≠ 24 →
      ¬(30 ≤ c ∧ c ≤ 37) → ¬(90 ≤ c ∧ c ≤ 97) → ¬(40 ≤ c ∧ c ≤ 47) → ¬(100 ≤ c ∧ c ≤ 107) →
      c ≠ 38 → c ≠ 48 → c ≠ 39 → c ≠ 49 →
      ∀ (fuel : Nat) (rest : List Nat) (attrs : Attrs),
        parseSGRGo (fuel + 1) (c :: rest) attrs = parseSGRGo fuel rest attrs) := by
  refine ⟨by decide, by decide, by decide, by decide, by decide, by decide, ?_⟩
  intro c h0 h1 h3 h4 h22 h23 h24 h30 h90 h40 h100 h38 h48 h39 h49 fuel rest attrs
  have hstep : parseSGRGo (fuel + 1) (c :: rest) attrs = sgrStep c rest attrs (parseSGRGo fuel) := by
    cases rest <;> rfl
  rw [hstep]
  cases rest with
  | nil =>
    simp [sgrStep, parseSGRGo, h0, h1, h3, h4, h22, h23, h24, h30, h90, h40, h100, h38, h48, h39, h49]
  | cons d rest2 =>
    simp [sgrStep, h0, h1, h3, h4, h22, h23, h24, h30, h90, h40, h100, h38, h48, h39, h49]

/-- Witness for C9 at the unknown code 77: skipping it leaves the rest of the
parameter list to be processed unchanged. -/
theorem parseSGR_truncation_safe_witness :
    parseSGRGo 2 [77, 31] {} = parseSGRGo 1 [31] {} :=
  parseSGR_truncation_safe.2.2.2.2.2.2 77 (by decide) (by decide) (by decide) (by decide)
    (by decide) (by decide) (by decide) (by decide) (by decide) (by decide) (by decide)
    (by decide) (by decide) (by decide) (by decide) 1 [31] {}

theorem intRange_length (a b : Int) : (intRange a b).length = (b - a).toNat := by
  unfold intRange
  rw [List.length_map, List.length_range]

theorem viewRows_length (lines : List (Option TLine)) (vp : Viewport) :
    (viewRows lines vp).length = rowCount lines vp := by
  simp [viewRows, rowCount, intRange_length]

theorem foldl_snoc_map {α β : Type} (f : α → β) :
    ∀ (l : List α) (acc : List β), l.foldl (fun r i => r ++ [f i]) acc = acc ++ l.map f := by
  intro l
  induction l with
  | nil => intro acc; simp
  | cons x xs ih => intro acc; simp [List.foldl_cons, ih]

theorem extractTextLayer_false_eq_map (lines : List (Option TLine)) (vp : Viewport) :
    extractTextLayer lines vp false = (viewRows lines vp).map (textRowAt lines vp) := by
  unfold extractTextLayer
  have hfun : (fun (result : List String) (i : Int) =>
      match lineAt lines i with
      | some ln =>
        let text := ln.text
        let text :=
          if vp.left > 0 ∨ vp.width < (text.length : Int) then
            jsSubstring text vp.left (vp.left + vp.width)
          else text
        if false = false ∨ jsTrim text ≠ "" then result ++ [text] else result
      | none => if false = false then result ++ [""] else result) =
      (fun (r : List String) (i : Int) => r ++ [textRowAt lines vp i]) := by
    funext r i
    cases h : lineAt lines i with
    | some ln => simp [textRowAt, h]
    | none => simp [textRowAt, h]
  rw [hfun, foldl_snoc_map]
  simp

theorem reindex_length (layer : List String) (idxs : List Nat) :
    (reindex layer idxs).length = idxs.length := by
  simp [reindex]

theorem enumFrom_filter_snd_length {α : Type} (q : α → Bool) :
    ∀ (n : Nat) (l : List α),
      ((l.enumFrom n).filter (fun p => q p.2)).length = (l.filter q).length := by
  intro n l
  induction l generalizing n with
  | nil => simp
  | cons x xs ih =>
    cases hq : q x <;> simp [List.enumFrom, List.filter, hq, ih]

theorem nonEmptyIndices_length (t : List String) :
    (nonEmptyIndices t).length = (t.filter (fun r => jsTrim r ≠ "")).length := by
  unfold nonEmptyIndices
  rw [List.length_map, List.enum]
  exact enumFrom_filter_snd_length (fun r => decide (jsTrim r ≠ "")) 0 t

/-- C1 (amended): before compaction every populated row-oriented layer has
exactly `max(0, min(lines.length, top + height) - top)` rows — the text layer
is the per-row image of the in-range row indices, so rows inside the captured
buffer with no structured-line entry are synthesized (as `''` for text), but
rows past the captured buffer's end are omitted rather than synthesized —
and after compaction every present row-oriented layer has exactly
`count(nonEmptyTextRows)` rows, a text row counting as non-empty iff it is
non-blank after trimming whitespace. -/
theorem layer_row_counts (lines : List (Option TLine)) (vp : Viewport) (layers : List String) :
    (extractTextLayer lines vp false = (viewRows lines vp).map (textRowAt lines vp) ∧
     (extractTextLayer lines vp false).length = rowCount lines vp ∧
     ∀ i, lineAt lines i = none → textRowAt lines vp i = "") ∧
    (∀ res, extractColorLayers lines vp layers = .ok res →
      (∀ fg, res.fgColors = some fg → fg.length = rowCount lines vp) ∧
      (∀ bg, res.bgColors = some bg → bg.length = rowCount lines vp)) ∧
    (∀ l, (extractStyleLayers lines vp layers).styles = some l → l.length = rowCount lines vp) ∧
    (∀ l, (extractStyleLayers lines vp layers).bold = some l → l.length = rowCount lines vp) ∧
    (∀ l, (extractStyleLayers lines vp layers).italic = some l → l.length = rowCount lines vp) ∧
    (∀ l, (extractStyleLayers lines vp layers).underline = some l → l.length = rowCount lines vp) ∧
    (∀ (f : Frame) (t : List String), f.text = some t →
      (applyCompactMode f).text.map List.length =
        some (t.filter (fun r => jsTrim r ≠ "")).length ∧
      (applyCompactMode f).styles.map List.length =
        f.styles.map (fun _ => (t.filter (fun r => jsTrim r ≠ "")).length) ∧
      (applyCompactMode f).bold.map List.length =
        f.bold.map (fun _ => (t.filter (fun r => jsTrim r ≠ "")).length) ∧
      (applyCompactMode f).italic.map List.length =
        f.italic.map (fun _ => (t.filter (fun r => jsTrim r ≠ "")).length) ∧
      (applyCompactMode f).underline.map List.length =
        f.underline.map (fun _ => (t.filter (fun r => jsTrim r ≠ "")).length) ∧
      (applyCompactMode f).fgColors.map List.length =
        f.fgColors.map (fun _ => (t.filter (fun r => jsTrim r ≠ "")).length) ∧
      (applyCompactMode f).bgColors.map List.length =
        f.bgColors.map (fun _ => (t.filter (fun r => jsTrim r ≠ "")).length)) := by
  refine ⟨⟨extractTextLayer_false_eq_map lines vp, ?_, ?_⟩, ?_, ?_, ?_, ?_, ?_, ?_⟩
  · rw [extractTextLayer_false_eq_map, List.length_map, viewRows_length]
  · intro i h; simp [textRowAt, h]
  · intro res hres
    unfold extractColorLayers at hres
    by_cases hflags : layers.contains "fgColors" = false ∧ layers.contains "bgColors" = false
    · rw [if_pos hflags] at hres
      cases hres
      exact ⟨fun fg h => by simp at h, fun bg h => by simp at h⟩
    · rw [if_neg hflags] at hres
      cases hb : buildPalette lines vp (layers.contains "fgColors") (layers.contains "bgColors") with
      | error e => rw [hb] at hres; cases hres
      | ok st =>
        rw [hb] at hres
        cases hres
        constructor
        · intro fg hfg
          simp only [] at hfg
          split at hfg
          · cases hfg; rw [List.length_map, viewRows_length]
          · cases hfg
        · intro bg hbg
          simp only [] at hbg
          split at hbg
          · cases hbg; rw [List.length_map, viewRows_length]
          · cases hbg
  · intro l hl
    simp [extractStyleLayers] at hl
    rw [← hl.2, List.length_map, viewRows_length]
  · intro l hl
    simp [extractStyleLayers] at hl
    rw [← hl.2]
    unfold extractSingleStyle
    rw [List.length_map, viewRows_length]
  · intro l hl
    simp [extractStyleLayers] at hl
    rw [← hl.2]
    unfold extractSingleStyle
    rw [List.length_map, viewRows_length]
  · intro l hl
    simp [extractStyleLayers] at hl
    rw [← hl.2]
    unfold extractSingleStyle
    rw [List.length_map, viewRows_length]
  · intro f t ht
    have hc : applyCompactMode f =
        { f with
          text := some (reindex t (nonEmptyIndices t)),
          styles := f.styles.map (reindex · (nonEmptyIndices t)),
          bold := f.bold.map (reindex · (nonEmptyIndices t)),
          italic := f.italic.map (reindex · (nonEmptyIndices t)),
          underline := f.underline.map (reindex · (nonEmptyIndices t)),
          fgColors := f.fgColors.map (reindex · (nonEmptyIndices t)),
          bgColors := f.bgColors.map (reindex · (nonEmptyIndices t)) } := by
      simp [applyCompactMode, ht]
    rw [hc]
    refine ⟨?_, ?_, ?_, ?_, ?_, ?_, ?_⟩ <;>
      simp [reindex_length, nonEmptyIndices_length, Option.map_map, Function.comp] <;>
      cases f.styles <;> cases f.bold <;> cases f.italic <;> cases f.underline <;>
        cases f.fgColors <;> cases f.bgColors <;>
      simp [reindex_length, nonEmptyIndices_length]

/-- Witness for C1: a one-line buffer with a styled run, a full-height
viewport and a requested foreground layer produce one foreground row —
exactly the captured row count. -/
theorem layer_row_counts_witness :
    (["11"] : List String).length =
      rowCount [some { text := "AB", style := some [{ repeats := 2, fg := some (.std 1) }] }]
        { mode := .full, left := 0, top := 0, width := 2, height := 1 } :=
  ((layer_row_counts
      [some { text := "AB", style := some [{ repeats := 2, fg := some (.std 1) }] }]
      { mode := .full, left := 0, top := 0, width := 2, height := 1 } ["fgColors"]).2.1
    { fgColors := some ["11"], colorPalette := some [('0', none), ('1', some "#c23621")] }
    (by decide)).1 ["11"] rfl

/-- Counterexample to C1 as stated: a viewport two rows tall over a one-line
captured buffer yields a text layer with a single row — the row past the
buffer's end is omitted, not synthesized, so the layer does not have
`viewport.height` rows. -/
theorem layer_row_counts_counterexample :
    extractTextLayer [some { text := "A" }]
      { mode := .full, left := 0, top := 0, width := 3, height := 2 } false = ["A"] ∧
    (extractTextLayer [some { text := "A" }]
      { mode := .full, left := 0, top := 0, width := 3, height := 2 } false).length ≠ 2 := by
  decide

theorem viewRows_of_nonpos_height (lines : List (Option TLine)) (vp : Viewport)
    (h : vp.height ≤ 0) : viewRows lines vp = [] := by
  unfold viewRows intRange
  have hz : (min (lines.length : Int) (vp.top + vp.height) - vp.top).toNat = 0 := by omega
  rw [hz]
  rfl

theorem jsSubstring_nonpos (s : String) (b : Int) (hb : b ≤ 0) : jsSubstring s 0 b = "" := by
  have ha : (max 0 (min (0 : Int) (s.length : Int))).toNat = 0 := by omega
  have hbb : (max 0 (min b (s.length : Int))).toNat = 0 := by omega
  simp only [jsSubstring]
  rw [ha, hbb]
  rfl

/-- C8 (amended): a viewport of non-positive height yields no error and zero
rows in every requested row-oriented layer (the color pass returns
successfully); a zero-or-negative width alone does not reduce the row count —
with the default left edge each captured in-range row still yields one (empty)
text row. -/
theorem degenerate_viewport (lines : List (Option TLine)) (vp : Viewport) (layers : List String) :
    (vp.height ≤ 0 →
      extractTextLayer lines vp false = [] ∧
      (∃ res, extractColorLayers lines vp layers = .ok res ∧
        res.fgColors.getD [] = [] ∧ res.bgColors.getD [] = []) ∧
      (extractStyleLayers lines vp layers).styles.getD [] = [] ∧
      (extractStyleLayers lines vp layers).bold.getD [] = [] ∧
      (extractStyleLayers lines vp layers).italic.getD [] = [] ∧
      (extractStyleLayers lines vp layers).underline.getD [] = []) ∧
    (vp.left = 0 → vp.width ≤ 0 →
      extractTextLayer lines vp false = (viewRows lines vp).map (fun _ => "")) := by
  constructor
  · intro h
    have hrows := viewRows_of_nonpos_height lines vp h
    have htext : extractTextLayer lines vp false = [] := by
      rw [extractTextLayer_false_eq_map, hrows]; rfl
    have hoccs : paletteOccs lines vp (layers.contains "fgColors") (layers.contains "bgColors") = [] := by
      unfold paletteOccs
      rw [hrows]
      rfl
    have hsingle : ∀ sel, extractSingleStyle lines vp sel = [] := by
      intro sel
      unfold extractSingleStyle
      rw [hrows]
      rfl
    refine ⟨htext, ?_, ?_, ?_, ?_, ?_⟩
    · unfold extractColorLayers
      by_cases hflags : layers.contains "fgColors" = false ∧ layers.contains "bgColors" = false
      · rw [if_pos hflags]
        exact ⟨{}, rfl, rfl, rfl⟩
      · rw [if_neg hflags]
        have hpal : buildPalette lines vp (layers.contains "fgColors") (layers.contains "bgColors") =
            .ok (1, []) := by
          unfold buildPalette
          rw [hoccs]
          rfl
        rw [hpal]
        refine ⟨_, rfl, ?_, ?_⟩ <;>
          · rw [hrows]
            cases hf : layers.contains "fgColors" <;> cases hg : layers.contains "bgColors" <;> simp [hf, hg]
    · unfold extractStyleLayers
      rw [hrows]
      cases hf : layers.contains "styles" <;> simp [hf]
    · unfold extractStyleLayers
      cases hf : layers.contains "bold" <;> simp [hf, hsingle]
    · unfold extractStyleLayers
      cases hf : layers.contains "italic" <;> simp [hf, hsingle]
    · unfold extractStyleLayers
      cases hf : layers.contains "underline" <;> simp [hf, hsingle]
  · intro hleft hw
    rw [extractTextLayer_false_eq_map]
    apply List.map_congr_left
    intro i _
    unfold textRowAt
    cases h : lineAt lines i with
    | none => rfl
    | some ln =>
      rw [hleft]
      show (if (0 : Int) > 0 ∨ vp.width < (ln.text.length : Int) then
          jsSubstring ln.text 0 (0 + vp.width) else ln.text) = ""
      by_cases hcond : (0 : Int) > 0 ∨ vp.width < (ln.text.length : Int)
      · rw [if_pos hcond]
        exact jsSubstring_nonpos ln.text (0 + vp.width) (by omega)
      · rw [if_neg hcond]
        have hlen0 : ln.text.length = 0 := by
          push_neg at hcond
          omega
        have hdata : ln.text.data = [] := List.length_eq_zero.mp hlen0
        cases htt : ln.text with
        | mk d =>
          rw [htt] at hdata
          have hd : d = [] := hdata
          rw [hd]

/-- Witness for C8: a zero-height region produces an empty text layer without
error. -/
theorem degenerate_viewport_witness :
    extractTextLayer [some { text := "A" }]
      { mode := .region, left := 0, top := 0, width := 4, height := 0 } false = [] :=
  ((degenerate_viewport [some { text := "A" }]
      { mode := .region, left := 0, top := 0, width := 4, height := 0 } ["fgColors"]).1
    (by decide)).1

/-- Counterexample to C8 as stated: a zero-width, one-row region over a
one-line buffer yields a text layer with one (empty) row, not zero rows. -/
theorem degenerate_viewport_counterexample :
    extractTextLayer [some { text := "A" }]
      { mode := .region, left := 0, top := 0, width := 0, height := 1 } false = [""] ∧
    (extractTextLayer [some { text := "A" }]
      { mode := .region, left := 0, top := 0, width := 0, height := 1 } false).length ≠ 0 := by
  decide

theorem indexToChar_lt (i : Nat) (h : i < 62) : indexToChar i = .ok (tokChar i) := by
  unfold indexToChar tokChar decDigitChar
  split_ifs <;> (try subst_vars) <;> first | rfl | omega

theorem indexToChar_ge (i : Nat) (h : 62 ≤ i) :
    indexToChar i = .error ("Palette overflow: " ++ jsNumToString i ++ " exceeds maximum of 61 colors") := by
  unfold indexToChar
  split_ifs <;> first | rfl | omega

theorem tokChar_inj : ∀ i < 62, ∀ j < 62, tokChar i = tokChar j → i = j := by decide

theorem tokChar_ne_zero : ∀ i, 1 ≤ i → i < 62 → tokChar i ≠ '0' := by decide

theorem lookup_isSome_iff {β : Type} (ps : List (String × β)) (k : String) :
    (ps.lookup k).isSome = true ↔ k ∈ ps.map Prod.fst := by
  induction ps with
  | nil => simp [List.lookup]
  | cons p rest ih =>
    obtain ⟨a, b⟩ := p
    by_cases h : k = a
    · subst h
      simp [List.lookup]
    · have hb : (k == a) = false := beq_eq_false_iff_ne.mpr h
      simp [List.lookup, hb, ih, h]

theorem dedupFirstGo_congr (l : List String) :
    ∀ (s1 s2 : List String), (∀ x, x ∈ s1 ↔ x ∈ s2) → dedupFirstGo s1 l = dedupFirstGo s2 l := by
  induction l with
  | nil => intro s1 s2 _; rfl
  | cons h t ih =>
    intro s1 s2 hs
    unfold dedupFirstGo
    by_cases hm : h ∈ s1
    · rw [if_pos hm, if_pos ((hs h).mp hm)]
      exact ih s1 s2 hs
    · rw [if_neg hm, if_neg (fun hc => hm ((hs h).mpr hc))]
      rw [ih (h :: s1) (h :: s2) (fun x => by simp [hs x])]

theorem tokens_range_nodup (n : Nat) (hn : n ≤ 61) :
    (((List.range n).map (fun k => tokChar (k + 1))).Nodup) := by
  refine List.Nodup.map_on ?_ (List.nodup_range n)
  intro x hx y hy hxy
  rw [List.mem_range] at hx hy
  have := tokChar_inj (x + 1) (by omega) (y + 1) (by omega) hxy
  omega

theorem zero_not_mem_tokens (n : Nat) (hn : n ≤ 61) :
    '0' ∉ (List.range n).map (fun k => tokChar (k + 1)) := by
  intro hmem
  rw [List.mem_map] at hmem
  obtain ⟨k, hk, hek⟩ := hmem
  rw [List.mem_range] at hk
  exact tokChar_ne_zero (k + 1) (by omega) (by omega) hek

theorem dedupFirstGo_cons (s : List String) (h : String) (t : List String) :
    dedupFirstGo s (h :: t) =
      if h ∈ s then dedupFirstGo s t else h :: dedupFirstGo (h :: s) t := rfl

/-- The palette-building pass, characterised: starting from a well-formed
palette state, the fold fails exactly when the distinct new colors would push
the palette beyond its 61 real slots, and on success appends the new colors
in first-seen order with the successive token characters. -/
theorem palette_fold_spec (l : List String) :
    ∀ ps : List (String × Char),
      ps.map Prod.snd = (List.range ps.length).map (fun k => tokChar (k + 1)) →
      (ps.map Prod.fst).Nodup →
      ps.length ≤ 61 →
      (61 < ps.length + (dedupFirstGo (ps.map Prod.fst) l).length →
        ∃ e, l.foldlM addPaletteColor (ps.length + 1, ps) = .error e) ∧
      (ps.length + (dedupFirstGo (ps.map Prod.fst) l).length ≤ 61 →
        ∃ ps' : List (String × Char),
          l.foldlM addPaletteColor (ps.length + 1, ps) = .ok (ps'.length + 1, ps') ∧
          ps'.map Prod.fst = ps.map Prod.fst ++ dedupFirstGo (ps.map Prod.fst) l ∧
          ps'.map Prod.snd = (List.range ps'.length).map (fun k => tokChar (k + 1)) ∧
          (ps'.map Prod.fst).Nodup ∧ ps'.length ≤ 61) := by
  induction l with
  | nil =>
    intro ps hsnd hnd hlen
    constructor
    · intro hgt
      exfalso
      simp [dedupFirstGo] at hgt
      omega
    · intro _
      exact ⟨ps, rfl, by simp [dedupFirstGo], hsnd, hnd, hlen⟩
  | cons h t ih =>
    intro ps hsnd hnd hlen
    by_cases hmem : h ∈ ps.map Prod.fst
    · have hstep : addPaletteColor (ps.length + 1, ps) h = .ok (ps.length + 1, ps) := by
        unfold addPaletteColor
        rw [if_pos ((lookup_isSome_iff ps h).mpr hmem)]
      have hfold : (h :: t).foldlM addPaletteColor (ps.length + 1, ps) =
          t.foldlM addPaletteColor (ps.length + 1, ps) := by
        rw [List.foldlM_cons, hstep]
        rfl
      have hded : dedupFirstGo (ps.map Prod.fst) (h :: t) = dedupFirstGo (ps.map Prod.fst) t := by
        rw [dedupFirstGo_cons, if_pos hmem]
      rw [hfold, hded]
      exact ih ps hsnd hnd hlen
    · have hded : dedupFirstGo (ps.map Prod.fst) (h :: t) =
          h :: dedupFirstGo (h :: ps.map Prod.fst) t := by
        rw [dedupFirstGo_cons, if_neg hmem]
      by_cases hsz : ps.length ≤ 60
      · have hstep : addPaletteColor (ps.length + 1, ps) h =
            .ok (ps.length + 1 + 1, ps ++ [(h, tokChar (ps.length + 1))]) := by
          unfold addPaletteColor
          rw [if_neg (fun hc => hmem ((lookup_isSome_iff ps h).mp hc))]
          rw [indexToChar_lt (ps.length + 1) (by omega)]
          rfl
        have hlen1 : (ps ++ [(h, tokChar (ps.length + 1))]).length = ps.length + 1 := by simp
        have hfold : (h :: t).foldlM addPaletteColor (ps.length + 1, ps) =
            t.foldlM addPaletteColor
              ((ps ++ [(h, tokChar (ps.length + 1))]).length + 1,
                ps ++ [(h, tokChar (ps.length + 1))]) := by
          rw [List.foldlM_cons, hstep, hlen1]
          rfl
        have hsnd1 : (ps ++ [(h, tokChar (ps.length + 1))]).map Prod.snd =
            (List.range (ps ++ [(h, tokChar (ps.length + 1))]).length).map (fun k => tokChar (k + 1)) := by
          rw [hlen1, List.range_succ]
          simp [hsnd]
        have hnd1 : ((ps ++ [(h, tokChar (ps.length + 1))]).map Prod.fst).Nodup := by
          simp only [List.map_append, List.map_cons, List.map_nil]
          rw [List.nodup_append]
          refine ⟨hnd, List.nodup_singleton h, ?_⟩
          simp only [List.disjoint_singleton]
          intro hc
          exact hmem hc
        have hkeys1 : (ps ++ [(h, tokChar (ps.length + 1))]).map Prod.fst = ps.map Prod.fst ++ [h] := by
          simp
        have hdedcongr : dedupFirstGo ((ps ++ [(h, tokChar (ps.length + 1))]).map Prod.fst) t =
            dedupFirstGo (h :: ps.map Prod.fst) t := by
          rw [hkeys1]
          exact dedupFirstGo_congr t _ _ (fun x => by simp; tauto)
        have ih1 := ih (ps ++ [(h, tokChar (ps.length + 1))]) hsnd1 hnd1 (by omega)
        rw [hdedcongr] at ih1
        constructor
        · intro hgt
          obtain ⟨e, he⟩ := ih1.1 (by rw [hlen1]; rw [hded] at hgt; simp at hgt; omega)
          exact ⟨e, by rw [hfold]; exact he⟩
        · intro hle
          obtain ⟨ps', hps'fold, hps'keys, hps'snd, hps'nd, hps'len⟩ :=
            ih1.2 (by rw [hlen1]; rw [hded] at hle; simp at hle; omega)
          refine ⟨ps', by rw [hfold]; exact hps'fold, ?_, hps'snd, hps'nd, hps'len⟩
          rw [hps'keys, hkeys1, hded]
          simp
      · have hlen61 : ps.length = 61 := by omega
        have hstep : addPaletteColor (ps.length + 1, ps) h =
            .error ("Palette overflow: " ++ jsNumToString (ps.length + 1) ++
              " exceeds maximum of 61 colors") := by
          unfold addPaletteColor
          rw [if_neg (fun hc => hmem ((lookup_isSome_iff ps h).mp hc))]
          rw [indexToChar_ge (ps.length + 1) (by omega)]
          rfl
        have hfold : (h :: t).foldlM addPaletteColor (ps.length + 1, ps) =
            .error ("Palette overflow: " ++ jsNumToString (ps.length + 1) ++
              " exceeds maximum of 61 colors") := by
          rw [List.foldlM_cons, hstep]
          rfl
        constructor
        · intro _
          exact ⟨_, hfold⟩
        · intro hle
          exfalso
          rw [hded] at hle
          simp at hle
          omega

theorem flatMap_nil_fun {α β : Type} (l : List α) : l.flatMap (fun _ => ([] : List β)) = [] := by
  induction l with
  | nil => rfl
  | cons a t ih => exact ih

theorem flatMap_congr' {α β : Type} (l : List α) (f g : α → List β)
    (h : ∀ a ∈ l, f a = g a) : l.flatMap f = l.flatMap g := by
  induction l with
  | nil => rfl
  | cons a t ih =>
    have ha := h a (by simp)
    have ht := ih (fun x hx => h x (by simp [hx]))
    simp [List.flatMap_cons] at *
    rw [ha, ht]

theorem rowOccs_false_false (oln : Option TLine) : rowOccs false false oln = [] := by
  unfold rowOccs
  cases h2 : optStyle oln with
  | none => rfl
  | some runs => exact flatMap_nil_fun runs

theorem paletteOccs_false_false (lines : List (Option TLine)) (vp : Viewport) :
    paletteOccs lines vp false false = [] := by
  unfold paletteOccs
  rw [flatMap_congr' _ _ (fun _ => []) ?_]
  · exact flatMap_nil_fun _
  · intro i _
    exact rowOccs_false_false _

theorem buildPalette_spec (lines : List (Option TLine)) (vp : Viewport) (needsFg needsBg : Bool) :
    (61 < distinctColorCount lines vp needsFg needsBg →
      ∃ e, buildPalette lines vp needsFg needsBg = .error e) ∧
    (distinctColorCount lines vp needsFg needsBg ≤ 61 →
      ∃ ps : List (String × Char),
        buildPalette lines vp needsFg needsBg = .ok (ps.length + 1, ps) ∧
        ps.map Prod.fst = dedupFirstGo [] (paletteOccs lines vp needsFg needsBg) ∧
        ps.map Prod.snd = (List.range ps.length).map (fun k => tokChar (k + 1)) ∧
        (ps.map Prod.fst).Nodup ∧ ps.length ≤ 61) := by
  have h := palette_fold_spec (paletteOccs lines vp needsFg needsBg) [] (by rfl) (by simp) (by simp)
  unfold buildPalette distinctColorCount
  simpa using h

/-- C2: whenever the style runs of the in-viewport rows require 62 or more
distinct non-default colors, `extractColorLayers` raises the identifiable
palette-overflow error — the whole call aborts during the palette pass, so no
partial `fgColors`/`bgColors` output is emitted — and with at most 61
distinct colors (and a non-negative viewport width, where JavaScript's
`repeat` is defined) it never raises it. -/
theorem palette_overflow_behaviour (lines : List (Option TLine)) (vp : Viewport) (layers : List String) :
    (62 ≤ distinctColorCount lines vp (layers.contains "fgColors") (layers.contains "bgColors") →
      ∃ e, extractColorLayers lines vp layers = .error e) ∧
    (0 ≤ vp.width →
      distinctColorCount lines vp (layers.contains "fgColors") (layers.contains "bgColors") ≤ 61 →
      ∃ res, extractColorLayers lines vp layers = .ok res) := by
  constructor
  · intro hge
    unfold extractColorLayers
    by_cases hflags : layers.contains "fgColors" = false ∧ layers.contains "bgColors" = false
    · exfalso
      unfold distinctColorCount at hge
      rw [hflags.1, hflags.2, paletteOccs_false_false] at hge
      simp [dedupFirstGo] at hge
    · rw [if_neg hflags]
      obtain ⟨e, he⟩ :=
        (buildPalette_spec lines vp (layers.contains "fgColors") (layers.contains "bgColors")).1
          (by omega)
      rw [he]
      exact ⟨e, rfl⟩
  · intro _ hle
    unfold extractColorLayers
    by_cases hflags : layers.contains "fgColors" = false ∧ layers.contains "bgColors" = false
    · rw [if_pos hflags]
      exact ⟨{}, rfl⟩
    · rw [if_neg hflags]
      obtain ⟨ps, hps, _⟩ :=
        (buildPalette_spec lines vp (layers.contains "fgColors") (layers.contains "bgColors")).2 hle
      rw [hps]
      exact ⟨_, rfl⟩

theorem lookup_mem {β : Type} {ps : List (String × β)} {k : String} {v : β}
    (h : ps.lookup k = some v) : (k, v) ∈ ps := by
  induction ps with
  | nil => simp [List.lookup] at h
  | cons p rest ih =>
    obtain ⟨a, b⟩ := p
    by_cases hk : k = a
    · subst hk
      simp [List.lookup] at h
      simp [h]
    · have hb : (k == a) = false := beq_eq_false_iff_ne.mpr hk
      simp [List.lookup, hb] at h
      simp [ih h]

theorem foldl_mul_add (l : List Nat) : ∀ v : Nat,
    l.foldl (fun a d => a * 10 + d) v = v * 10 ^ l.length + l.foldl (fun a d => a * 10 + d) 0 := by
  induction l with
  | nil => intro v; simp
  | cons d t ih =>
    intro v
    simp only [List.foldl_cons, List.length_cons]
    rw [ih (v * 10 + d), ih (0 * 10 + d)]
    ring

theorem msbVal_digitsGo : ∀ (fuel n : Nat) (acc : List Nat), n ≤ fuel →
    msbVal (baseDigitsGo 10 fuel n acc) = n * 10 ^ acc.length + msbVal acc := by
  intro fuel
  induction fuel with
  | zero =>
    intro n acc h
    have hn : n = 0 := by omega
    subst hn
    unfold baseDigitsGo msbVal
    rw [List.foldl_cons, foldl_mul_add]
    simp
  | succ f ih =>
    intro n acc h
    unfold baseDigitsGo
    by_cases hn : n < 10
    · rw [if_pos hn]
      unfold msbVal
      rw [List.foldl_cons, foldl_mul_add]
      simp
    · rw [if_neg hn]
      rw [ih (n / 10) (n % 10 :: acc) (by omega)]
      unfold msbVal
      rw [List.foldl_cons, foldl_mul_add acc (0 * 10 + n % 10)]
      simp only [List.length_cons, pow_succ]
      have hqr : n / 10 * 10 + n % 10 = n := by omega
      conv_rhs => rw [← hqr]
      ring

theorem msbVal_decDigits (n : Nat) : msbVal (decDigits n) = n := by
  unfold decDigits
  rw [msbVal_digitsGo n n [] (le_refl n)]
  simp [msbVal]

theorem digitsGo_lt_ten : ∀ (fuel n : Nat) (acc : List Nat), n ≤ fuel → (∀ d ∈ acc, d < 10) →
    ∀ d ∈ baseDigitsGo 10 fuel n acc, d < 10 := by
  intro fuel
  induction fuel with
  | zero =>
    intro n acc h hacc d hd
    have hn : n = 0 := by omega
    subst hn
    unfold baseDigitsGo at hd
    rw [List.mem_cons] at hd
    rcases hd with hd | hd
    · omega
    · exact hacc d hd
  | succ f ih =>
    intro n acc h hacc d hd
    unfold baseDigitsGo at hd
    by_cases hn : n < 10
    · rw [if_pos hn] at hd
      rw [List.mem_cons] at hd
      rcases hd with hd | hd
      · omega
      · exact hacc d hd
    · rw [if_neg hn] at hd
      refine ih (n / 10) (n % 10 :: acc) (by omega) ?_ d hd
      intro x hx
      rw [List.mem_cons] at hx
      rcases hx with hx | hx
      · omega
      · exact hacc x hx

theorem decDigits_lt_ten (n : Nat) : ∀ d ∈ decDigits n, d < 10 :=
  digitsGo_lt_ten n n [] (le_refl n) (by simp)

theorem decDigitChar_inj : ∀ a < 10, ∀ b < 10, decDigitChar a = decDigitChar b → a = b := by
  decide

theorem map_decDigitChar_inj : ∀ (xs ys : List Nat), (∀ d ∈ xs, d < 10) → (∀ d ∈ ys, d < 10) →
    xs.map decDigitChar = ys.map decDigitChar → xs = ys := by
  intro xs
  induction xs with
  | nil =>
    intro ys _ _ h
    cases ys with
    | nil => rfl
    | cons b u => simp at h
  | cons a t ih =>
    intro ys hx hy h
    cases ys with
    | nil => simp at h
    | cons b u =>
      simp only [List.map_cons, List.cons.injEq] at h
      have hab := decDigitChar_inj a (hx a (by simp)) b (hy b (by simp)) h.1
      subst hab
      rw [ih u (fun d hd => hx d (by simp [hd])) (fun d hd => hy d (by simp [hd])) h.2]

theorem jsNumToString_inj (m n : Nat) (h : jsNumToString m = jsNumToString n) : m = n := by
  unfold jsNumToString at h
  have hd : (decDigits m).map decDigitChar = (decDigits n).map decDigitChar :=
    congrArg String.data h
  have := map_decDigitChar_inj _ _ (decDigits_lt_ten m) (decDigits_lt_ten n) hd
  have hm := msbVal_decDigits m
  rw [this, msbVal_decDigits n] at hm
  omega

theorem rgbToHex_ne_zero (c : RGB) : rgbToHex c ≠ "0" := by
  intro h
  have := congrArg String.data h
  simp [rgbToHex] at this

theorem colorHexList_ne_zero (oc : Option RunColor) : ∀ x ∈ colorHexList oc, x ≠ "0" := by
  intro x hx
  cases oc with
  | none => simp [colorHexList] at hx
  | some rc =>
    cases rc with
    | std n =>
      simp [colorHexList] at hx
      subst hx
      exact rgbToHex_ne_zero _
    | rgbc a b c =>
      simp [colorHexList] at hx
      subst hx
      exact rgbToHex_ne_zero _
    | alt => simp [colorHexList] at hx

theorem convertRunHexes_ne_zero (r : StyleRun) : ∀ x ∈ convertRunHexes r, x ≠ "0" := by
  intro x hx
  unfold convertRunHexes at hx
  rw [List.mem_append] at hx
  rcases hx with hx | hx
  · exact colorHexList_ne_zero r.fg x hx
  · exact colorHexList_ne_zero r.bg x hx

theorem foldl_flatMap {α β σ : Type} (f : σ → β → σ) (g : α → List β) (l : List α) : ∀ s : σ,
    l.foldl (fun st x => (g x).foldl f st) s = (l.flatMap g).foldl f s := by
  induction l with
  | nil => intro s; rfl
  | cons a t ih =>
    intro s
    rw [List.foldl_cons, ih, List.flatMap_cons, List.foldl_append]

/-- The `convertToLayers` palette pass, characterised: starting from a
well-formed palette, new colors are appended in first-seen order with the
successive decimal tokens; nothing can fail. -/
theorem convert_fold_spec (l : List String) (hne : ∀ x ∈ l, x ≠ "0") :
    ∀ real : List (String × Option String),
      real.map Prod.snd = (List.range real.length).map (fun k => some (jsNumToString (k + 1))) →
      (real.map Prod.fst).Nodup →
      "0" ∉ real.map Prod.fst →
      ∃ real' : List (String × Option String),
        l.foldl convertAddColor (real.length + 1, ("0", none) :: real) =
          (real'.length + 1, ("0", none) :: real') ∧
        real'.map Prod.fst = real.map Prod.fst ++ dedupFirstGo (real.map Prod.fst) l ∧
        real'.map Prod.snd = (List.range real'.length).map (fun k => some (jsNumToString (k + 1))) ∧
        (real'.map Prod.fst).Nodup ∧ "0" ∉ real'.map Prod.fst := by
  induction l with
  | nil =>
    intro real hsnd hnd h0
    exact ⟨real, rfl, by simp [dedupFirstGo], hsnd, hnd, h0⟩
  | cons h t ih =>
    intro real hsnd hnd h0
    have hne_h : h ≠ "0" := hne h (by simp)
    have hne_t : ∀ x ∈ t, x ≠ "0" := fun x hx => hne x (by simp [hx])
    have hlookup_cons : (("0", none) :: real).lookup h = real.lookup h := by
      have hb : (h == "0") = false := beq_eq_false_iff_ne.mpr hne_h
      simp [List.lookup, hb]
    by_cases hmem : h ∈ real.map Prod.fst
    · have hv : ∃ v, real.lookup h = some v := by
        have := (lookup_isSome_iff real h).mpr hmem
        exact Option.isSome_iff_exists.mp this
      obtain ⟨v, hv⟩ := hv
      have hvs : v.isSome := by
        have hmemv := lookup_mem hv
        have : v ∈ real.map Prod.snd := List.mem_map.mpr ⟨(h, v), hmemv, rfl⟩
        rw [hsnd] at this
        rw [List.mem_map] at this
        obtain ⟨k, _, hk⟩ := this
        rw [← hk]
        rfl
      obtain ⟨t0, ht0⟩ := Option.isSome_iff_exists.mp hvs
      have hstep : convertAddColor (real.length + 1, ("0", none) :: real) h =
          (real.length + 1, ("0", none) :: real) := by
        unfold convertAddColor
        rw [hlookup_cons, hv, ht0]
      have hded : dedupFirstGo (real.map Prod.fst) (h :: t) = dedupFirstGo (real.map Prod.fst) t := by
        rw [dedupFirstGo_cons, if_pos hmem]
      rw [List.foldl_cons, hstep, hded]
      exact ih hne_t real hsnd hnd h0
    · have hlook_none : real.lookup h = none := by
        cases hl : real.lookup h with
        | none => rfl
        | some v =>
          exfalso
          exact hmem ((lookup_isSome_iff real h).mp (by rw [hl]; rfl))
      have hstep : convertAddColor (real.length + 1, ("0", none) :: real) h =
          ((real ++ [(h, some (jsNumToString (real.length + 1)))]).length + 1,
            ("0", none) :: (real ++ [(h, some (jsNumToString (real.length + 1)))])) := by
        unfold convertAddColor
        rw [hlookup_cons, hlook_none]
        simp
      have hded : dedupFirstGo (real.map Prod.fst) (h :: t) =
          h :: dedupFirstGo (h :: real.map Prod.fst) t := by
        rw [dedupFirstGo_cons, if_neg hmem]
      have hkeys1 : (real ++ [(h, some (jsNumToString (real.length + 1)))]).map Prod.fst =
          real.map Prod.fst ++ [h] := by simp
      have hsnd1 : (real ++ [(h, some (jsNumToString (real.length + 1)))]).map Prod.snd =
          (List.range (real ++ [(h, some (jsNumToString (real.length + 1)))]).length).map
            (fun k => some (jsNumToString (k + 1))) := by
        simp only [List.length_append, List.length_singleton, List.range_succ]
        simp [hsnd]
      have hnd1 : ((real ++ [(h, some (jsNumToString (real.length + 1)))]).map Prod.fst).Nodup := by
        rw [hkeys1, List.nodup_append]
        refine ⟨hnd, List.nodup_singleton h, ?_⟩
        simp only [List.disjoint_singleton]
        exact hmem
      have h01 : "0" ∉ (real ++ [(h, some (jsNumToString (real.length + 1)))]).map Prod.fst := by
        rw [hkeys1]
        simp only [List.mem_append, List.mem_singleton]
        intro hc
        rcases hc with hc | hc
        · exact h0 hc
        · exact hne_h hc.symm
      obtain ⟨real', hfold', hkeys', hsnd', hnd', h0'⟩ := ih hne_t _ hsnd1 hnd1 h01
      refine ⟨real', ?_, ?_, hsnd', hnd', h0'⟩
      · rw [List.foldl_cons, hstep]
        exact hfold'
      · rw [hkeys', hkeys1, hded]
        rw [dedupFirstGo_congr t (real.map Prod.fst ++ [h]) (h :: real.map Prod.fst)
          (fun x => by simp; tauto)]
        simp

theorem convertPalette_spec (cl : List PLine) :
    ∃ real : List (String × Option String),
      convertPalette cl = ("0", none) :: real ∧
      real.map Prod.fst = dedupFirstGo [] (cl.flatMap (fun ln => ln.style.flatMap convertRunHexes)) ∧
      real.map Prod.snd = (List.range real.length).map (fun k => some (jsNumToString (k + 1))) ∧
      (real.map Prod.fst).Nodup ∧ "0" ∉ real.map Prod.fst := by
  have hne : ∀ x ∈ cl.flatMap (fun ln => ln.style.flatMap convertRunHexes), x ≠ "0" := by
    intro x hx
    rw [List.mem_flatMap] at hx
    obtain ⟨ln, _, hx⟩ := hx
    rw [List.mem_flatMap] at hx
    obtain ⟨r, _, hx⟩ := hx
    exact convertRunHexes_ne_zero r x hx
  obtain ⟨real, hfold, hkeys, hsnd, hnd, h0⟩ :=
    convert_fold_spec (cl.flatMap (fun ln => ln.style.flatMap convertRunHexes)) hne []
      (by rfl) (by simp) (by simp)
  refine ⟨real, ?_, hkeys, hsnd, hnd, h0⟩
  unfold convertPalette
  rw [foldl_flatMap convertAddColor (fun ln => ln.style.flatMap convertRunHexes) cl
    (1, [("0", none)])]
  have : ((1 : Nat), [(("0" : String), (none : Option String))]) =
      (([] : List (String × Option String)).length + 1, ("0", none) :: []) := rfl
  rw [this, hfold]

theorem filterMap_out (real : List (String × Option String))
    (h : ∀ p ∈ real, p.1 ≠ "0" ∧ p.2.isSome) :
    (real.filterMap (fun p =>
        if p.1 ≠ "0" then p.2.map (fun tok => (tok, some p.1)) else none)).map Prod.fst =
      (real.map Prod.snd).map (fun o => o.getD "") ∧
    (real.filterMap (fun p =>
        if p.1 ≠ "0" then p.2.map (fun tok => (tok, some p.1)) else none)).map Prod.snd =
      (real.map Prod.fst).map some := by
  induction real with
  | nil => exact ⟨rfl, rfl⟩
  | cons p rest ih =>
    obtain ⟨hp1, hp2⟩ := h p (by simp)
    obtain ⟨t0, ht0⟩ := Option.isSome_iff_exists.mp hp2
    have hrest := ih (fun q hq => h q (by simp [hq]))
    simp at hrest
    simp [List.filterMap_cons, ht0, hp1, hrest.1, hrest.2]

/-- C6 (amended): every palette produced by an encode call reserves token
`'0'` for no-color (it heads the palette, mapped to null, and is never
assigned to a real color), assigns every distinct non-default hex color its
token in first-seen order, and is injective — no two hex strings share a
token.  In `extractColorLayers` the tokens are single characters
(`1-9`, `a-z`, `A-Z`); in the `convertToLayers` palette pass the tokens are
the decimal numerals of the successive indices, which are single characters
only up to the ninth distinct color. -/
theorem palette_token_properties (lines : List (Option TLine)) (vp : Viewport)
    (layers : List String) (cl : List PLine) :
    (∀ res pal, extractColorLayers lines vp layers = .ok res → res.colorPalette = some pal →
      pal.head? = some ('0', none) ∧
      (pal.map Prod.fst).Nodup ∧
      pal.tail.map Prod.fst = (List.range pal.tail.length).map (fun k => tokChar (k + 1)) ∧
      pal.tail.map Prod.snd =
        (dedupFirstGo [] (paletteOccs lines vp (layers.contains "fgColors")
          (layers.contains "bgColors"))).map some) ∧
    ((convertOutputPalette cl).head? = some ("0", none) ∧
     ((convertOutputPalette cl).map Prod.fst).Nodup ∧
     (convertOutputPalette cl).tail.map Prod.fst =
       (List.range (convertOutputPalette cl).tail.length).map (fun k => jsNumToString (k + 1)) ∧
     (convertOutputPalette cl).tail.map Prod.snd =
       (dedupFirstGo [] (cl.flatMap (fun ln => ln.style.flatMap convertRunHexes))).map some) := by
  constructor
  · intro res pal hres hpal
    unfold extractColorLayers at hres
    by_cases hflags : layers.contains "fgColors" = false ∧ layers.contains "bgColors" = false
    · rw [if_pos hflags] at hres
      cases hres
      cases hpal
    · rw [if_neg hflags] at hres
      rcases Nat.lt_or_ge 61 (distinctColorCount lines vp (layers.contains "fgColors")
          (layers.contains "bgColors")) with hgt | hle
      · obtain ⟨e, he⟩ := (buildPalette_spec lines vp _ _).1 hgt
        rw [he] at hres
        cases hres
      · obtain ⟨ps, hps, hkeys, hsnd, hnd, hlen⟩ := (buildPalette_spec lines vp _ _).2 hle
        rw [hps] at hres
        cases hres
        injection hpal with hpal
        subst hpal
        refine ⟨rfl, ?_, ?_, ?_⟩
        · simp only [List.map_cons, List.map_map]
          have hcomp : (Prod.fst ∘ fun p : String × Char => (p.2, some p.1)) = Prod.snd := by
            funext p
            rfl
          rw [hcomp, hsnd]
          exact List.nodup_cons.mpr ⟨zero_not_mem_tokens ps.length hlen,
            tokens_range_nodup ps.length hlen⟩
        · simp only [List.tail_cons, List.map_map, List.length_map]
          have hcomp : (Prod.fst ∘ fun p : String × Char => (p.2, some p.1)) = Prod.snd := by
            funext p
            rfl
          rw [hcomp, hsnd]
        · simp only [List.tail_cons, List.map_map]
          have hcomp : (Prod.snd ∘ fun p : String × Char => (p.2, some p.1)) =
              (fun p : String × Char => some p.1) := by
            funext p
            rfl
          rw [hcomp, ← hkeys]
          simp [List.map_map]
  · obtain ⟨real, hcp, hkeys, hsnd, hnd, h0⟩ := convertPalette_spec cl
    have hforall : ∀ p ∈ real, p.1 ≠ "0" ∧ p.2.isSome := by
      intro p hp
      constructor
      · intro hc
        exact h0 (by rw [← hc]; exact List.mem_map.mpr ⟨p, hp, rfl⟩)
      · have hmem : p.2 ∈ real.map Prod.snd := List.mem_map.mpr ⟨p, hp, rfl⟩
        rw [hsnd] at hmem
        rw [List.mem_map] at hmem
        obtain ⟨k, _, hk⟩ := hmem
        rw [← hk]
        rfl
    obtain ⟨hfst, hsnd2⟩ := filterMap_out real hforall
    have htokens : (real.map Prod.snd).map (fun o => o.getD "") =
        (List.range real.length).map (fun k => jsNumToString (k + 1)) := by
      rw [hsnd, List.map_map]
      rfl
    have hout : convertOutputPalette cl =
        ("0", none) :: real.filterMap (fun p =>
          if p.1 ≠ "0" then p.2.map (fun tok => (tok, some p.1)) else none) := by
      unfold convertOutputPalette
      rw [hcp]
      simp [List.filterMap_cons]
    have hlen2 : (real.filterMap (fun p =>
        if p.1 ≠ "0" then p.2.map (fun tok => (tok, some p.1)) else none)).length = real.length := by
      have := congrArg List.length hfst
      simpa using this
    rw [hout]
    refine ⟨rfl, ?_, ?_, ?_⟩
    · simp only [List.map_cons]
      refine List.nodup_cons.mpr ⟨?_, ?_⟩
      · rw [hfst, htokens]
        intro hc
        rw [List.mem_map] at hc
        obtain ⟨k, _, hk⟩ := hc
        have : k + 1 = 0 := jsNumToString_inj (k + 1) 0 (by rw [hk]; rfl)
        omega
      · rw [hfst, htokens]
        refine List.Nodup.map ?_ (List.nodup_range real.length)
        intro a b hab
        have := jsNumToString_inj (a + 1) (b + 1) hab
        omega
    · simp only [List.tail_cons]
      rw [hfst, htokens, hlen2]
    · simp only [List.tail_cons]
      rw [hsnd2, hkeys]

/-- Witness for C2: 62 distinct colors in one viewport raise the overflow
error, and a single distinct color encodes without error. -/
theorem palette_overflow_behaviour_witness :
    (∃ e, extractColorLayers lines62 vp62 ["fgColors"] = .error e) ∧
    (∃ res, extractColorLayers
        [some { text := "AB", style := some [{ repeats := 2, fg := some (.std 1) }] }]
        { mode := .full, left := 0, top := 0, width := 2, height := 1 } ["fgColors"] = .ok res) :=
  ⟨(palette_overflow_behaviour lines62 vp62 ["fgColors"]).1 (by decide),
   (palette_overflow_behaviour
      [some { text := "AB", style := some [{ repeats := 2, fg := some (.std 1) }] }]
      { mode := .full, left := 0, top := 0, width := 2, height := 1 } ["fgColors"]).2
      (by decide) (by decide)⟩

/-- Witness for C6: the palette of a one-color encode starts with the
reserved `'0' ↦ null` slot and assigns distinct tokens. -/
theorem palette_token_properties_witness :
    ([('0', none), ('1', some "#c23621")] : List (Char × Option String)).head? = some ('0', none) ∧
    (([('0', none), ('1', some "#c23621")] : List (Char × Option String)).map Prod.fst).Nodup :=
  let h := ((palette_token_properties
      [some { text := "AB", style := some [{ repeats := 2, fg := some (.std 1) }] }]
      { mode := .full, left := 0, top := 0, width := 2, height := 1 } ["fgColors"] []).1
    { fgColors := some ["11"], colorPalette := some [('0', none), ('1', some "#c23621")] }
    [('0', none), ('1', some "#c23621")] (by decide) rfl)
  ⟨h.1, h.2.1⟩

/-- Counterexample to C6 as stated: with ten distinct colors, the
`convertToLayers` output palette assigns the tenth color the two-character
token `"10"` — not a single printable character. -/
theorem palette_token_properties_counterexample :
    ("10", some "#fc391f") ∈ convertOutputPalette tenColorLines ∧
    ("10" : String).length ≠ 1 := by
  decide
